import Mathlib

/-!
Verification of the morarc conversational-agent core against its
natural-language specification.  Python strings are modelled as `List Char`,
machine floats as `ℚ` (with numpy's square root kept abstract, since it is
irrational), database rows as structures, and the external collaborators
(text-generation oracle, JSON parsing, HTTP probes, the web-search scraper)
as parameters bundled in an `Env` record.  Fallible collaborator calls are
`Except`-valued; Python exceptions are `Except.error`.
-/

namespace Morarc

/-- Python strings are modelled as lists of characters. -/
abbrev Str := List Char

/-- Coercion from a Lean string literal to the model's string type. -/
def str (s : String) : Str := s.data

/-- Whitespace, as used by Python's `str.strip`/`str.split` on the
characters that actually occur in this program. -/
def isWS (c : Char) : Bool := c == ' ' || c == '\n' || c == '\t' || c == '\r'

/-- Python `str.strip()`. -/
def pstrip (s : Str) : Str := ((s.dropWhile isWS).reverse.dropWhile isWS).reverse

/-- Python `str.lower()` (per-character, ASCII). -/
def lowerStr (s : Str) : Str := s.map Char.toLower

/-- Python `str.upper()` (per-character, ASCII). -/
def upperStr (s : Str) : Str := s.map Char.toUpper

/-- Python `needle in hay` on strings: substring containment. -/
def containsSub (needle hay : Str) : Bool :=
  (List.range (hay.length + 1)).any fun i => needle.isPrefixOf (hay.drop i)

/-- Python `sep.join(xs)`. -/
def joinSep (sep : Str) : List Str → Str
  | [] => []
  | [x] => x
  | x :: xs => x ++ sep ++ joinSep sep xs

/-- Python `s.replace(pat, rep)` for a non-empty pattern (all the patterns
used by the program are non-empty); left-to-right, non-overlapping. -/
def replaceAll (pat rep : Str) (s : Str) : Str :=
  match s with
  | [] => []
  | c :: rest =>
    if h : pat ≠ [] ∧ pat.isPrefixOf (c :: rest) then
      rep ++ replaceAll pat rep ((c :: rest).drop pat.length)
    else
      c :: replaceAll pat rep rest
termination_by s.length
decreasing_by
  · simp only [List.length_drop, List.length_cons]
    have : 1 ≤ pat.length := List.length_pos.mpr h.1
    omega
  · simp

/-- `_clean_json_payload`: strip markdown code fences, then whitespace. -/
def cleanJsonPayload (payload : Str) : Str :=
  pstrip (replaceAll (str "```") [] (replaceAll (str "```json") [] payload))

/-- Decimal digit rendering, structurally recursive on a fuel bound so
that it reduces inside the kernel (`n < fuel` always holds at call sites). -/
def natCharsAux : Nat → Nat → Str
  | 0, _ => []
  | fuel + 1, n =>
    if n < 10 then [Nat.digitChar n]
    else natCharsAux fuel (n / 10) ++ [Nat.digitChar (n % 10)]

/-- Python `str(n)` for a natural number: decimal digits. -/
def natChars (n : Nat) : Str := natCharsAux (n + 1) n

/-- Whitespace tokenizer (auxiliary; `acc` holds the reversed current token). -/
def tokensAux : Str → Str → List Str
  | acc, [] => if acc = [] then [] else [acc.reverse]
  | acc, c :: rest =>
    if isWS c then
      (if acc = [] then tokensAux [] rest else acc.reverse :: tokensAux [] rest)
    else tokensAux (c :: acc) rest

/-- The whitespace-separated tokens of a string: the formal notion of the
"words" of rendered output, used to state which URLs an output contains. -/
def tokens (s : Str) : List Str := tokensAux [] s

/-- A token is URL-shaped when it starts with "http". -/
def isHttpToken (t : Str) : Bool := (str "http").isPrefixOf t

/-- The URL-shaped tokens of a string. -/
def urlTokens (s : Str) : List Str := (tokens s).filter isHttpToken

/-- Python `s.split(maxsplit=1)` on an already-stripped string: the first
whitespace-delimited word and the remainder (leading whitespace dropped). -/
def splitFirstWord (s : Str) : Str × Str :=
  (s.takeWhile (fun c => !isWS c),
   (s.dropWhile (fun c => !isWS c)).dropWhile isWS)

/-- `site.replace("https://", "").replace("http://", "").split("/")[0]`. -/
def normalizeSite (site : Str) : Str :=
  (replaceAll (str "http://") [] (replaceAll (str "https://") [] site)).takeWhile
    (fun c => !(c == '/'))

/-! ## Data model -/

/-- A chat message, `{"role": ..., "content": ...}`. -/
structure Msg where
  role : Str
  content : Str
deriving DecidableEq

/-- `"\n".join(f"{msg['role']}: {msg['content']}" ...)`. -/
def historyText (h : List Msg) : Str :=
  joinSep (str "\n") (h.map fun m => m.role ++ str ": " ++ m.content)

/-- A concept-graph node `{id, status}`. -/
structure NodeData where
  id : Str
  status : Str
deriving DecidableEq

/-- A concept-graph edge `{source, target, relationship}`. -/
structure EdgeData where
  source : Str
  target : Str
  relationship : Str
deriving DecidableEq

/-- The extracted graph payload, after field defaulting (every field
present). -/
structure GraphData where
  domain : Str
  core_intent : Str
  article_archetype : Str
  exact_phrase_weight : Str
  nodes : List NodeData
  edges : List EdgeData
deriving DecidableEq

/-- A parsed-but-not-yet-defaulted graph payload (fields may be missing). -/
structure PartialGraph where
  domain : Option Str
  core_intent : Option Str
  article_archetype : Option Str
  exact_phrase_weight : Option Str
  nodes : Option (List NodeData)
  edges : Option (List EdgeData)

/-- The fixed fallback graph used on extraction parse failure. -/
def defaultGraph : GraphData :=
  { domain := str "General Knowledge"
    core_intent := str "learning the basics"
    article_archetype := str "general tutorial"
    exact_phrase_weight := str ""
    nodes := []
    edges := [] }

/-- `parsed.setdefault(...)` field by field. -/
def applyDefaults (p : PartialGraph) : GraphData :=
  { domain := p.domain.getD (str "General Knowledge")
    core_intent := p.core_intent.getD (str "learning the basics")
    article_archetype := p.article_archetype.getD (str "general tutorial")
    exact_phrase_weight := p.exact_phrase_weight.getD (str "")
    nodes := p.nodes.getD []
    edges := p.edges.getD [] }

/-- `RetrievalHit` from tools/articles/types.py. -/
structure RetrievalHit where
  url : Str
  title : Str
  snippet : Str
  source_query : Str
  retrieval_status : Str
  score : ℚ
deriving DecidableEq

/-- A persisted `User` row. -/
structure UserRow where
  id : Nat
  phone_number : Str
  name : Str
  has_been_welcomed : Bool
deriving DecidableEq

/-- A persisted `ConceptGraph` row (its JSON blobs decoded). -/
structure ConceptGraphRow where
  id : Nat
  user_id : Nat
  domain : Str
  embedding : List ℚ
  nodes : List NodeData
  edges : List EdgeData
deriving DecidableEq

/-- A persisted `DomainSource` row (its JSON blobs decoded). -/
structure DomainSourceRow where
  id : Nat
  domain_name : Str
  embedding : List ℚ
  sites : List Str
deriving DecidableEq

/-- An element of a JSON array returned by the oracle: a string or
something else (the code skips non-strings). -/
inductive JsonItem where
  | s (v : Str)
  | other
deriving DecidableEq

/-- The persistent store visible to the router: the users table and the
concept-graphs table. -/
structure Db where
  users : List UserRow
  graphs : List ConceptGraphRow
deriving DecidableEq

/-- In-memory `Session` (core/memory.py). -/
structure Session where
  phone_number : Str
  chat_history : List Msg
  tool_stack : List Str
  active_rag_context : Option Str
  active_graph_id : Option Nat
  tool_start_idx : Nat
deriving DecidableEq

/-- `Session.__init__`. -/
def freshSession (phone : Str) : Session :=
  { phone_number := phone, chat_history := [], tool_stack := []
    active_rag_context := none, active_graph_id := none, tool_start_idx := 0 }

/-- `Session.add_message`. -/
def Session.addMessage (s : Session) (role content : Str) : Session :=
  { s with chat_history := s.chat_history ++ [⟨role, content⟩] }

/-- `Session.push_tool`: raises (returns `Except.error`, leaving the caller
with the unchanged session) when the slot is occupied; otherwise pushes the
name and records the transcript length as the tool's start offset. -/
def Session.pushTool (s : Session) (tool_name : Str) : Except Str Session :=
  match s.tool_stack.getLast? with
  | some t =>
    Except.error (str "Cannot open '" ++ tool_name ++
      str "'. You must finish or stop '" ++ t ++ str "' first.")
  | none =>
    Except.ok { s with tool_stack := s.tool_stack ++ [tool_name]
                       tool_start_idx := s.chat_history.length }

/-- `Session.pop_tool`. -/
def Session.popTool (s : Session) : Option Str × Session :=
  match s.tool_stack.getLast? with
  | some t =>
    (some t, { s with active_rag_context := none, active_graph_id := none
                      tool_start_idx := 0, tool_stack := s.tool_stack.dropLast })
  | none => (none, s)

/-- `Session.get_current_tool`. -/
def Session.getCurrentTool (s : Session) : Option Str := s.tool_stack.getLast?

/-- The session store: identity → Session. -/
abbrev Mem := List (Str × Session)

/-- `MemoryManager.get_or_create_session`. -/
def getOrCreateSession (m : Mem) (phone : Str) : Session × Mem :=
  match m.find? (fun kv => decide (kv.1 = phone)) with
  | some kv => (kv.2, m)
  | none => (freshSession phone, m ++ [(phone, freshSession phone)])

/-- `MemoryManager.clear_session` (the lock-registry part is out of the
model). -/
def clearSession (m : Mem) (phone : Str) : Mem :=
  m.filter (fun kv => !(decide (kv.1 = phone)))

/-- Write a (Python-side mutated) session back into the store. -/
def setSession (m : Mem) (phone : Str) (s : Session) : Mem :=
  m.map (fun kv => if kv.1 = phone then (phone, s) else kv)

/-! ## Similarity scoring

`get_embedding` (the sentence-transformer model) is an external oracle.
`cosine_similarity` is embedded structurally over `ℚ`: numpy's square root
is irrational, so it is kept as an abstract parameter `sq`; the zero-vector
guard (`norm == 0` iff the sum of squares is `0`) is embedded exactly. -/

/-- `np.dot` on equal-length vectors. -/
def dotQ (a b : List ℚ) : ℚ := (List.zipWith (· * ·) a b).sum

/-- The squared euclidean norm; it is zero exactly when `np.linalg.norm` is. -/
def normSq (a : List ℚ) : ℚ := dotQ a a

/-- `cosine_similarity` from core/memory.py, with the square root abstract. -/
def cosineSim (sq : ℚ → ℚ) (a b : List ℚ) : ℚ :=
  if normSq a = 0 ∨ normSq b = 0 then 0
  else dotQ a b / (sq (normSq a) * sq (normSq b))

/-- The best-match scan loop shared by `retrieve_and_inject_rag` and
`get_verified_sites_for_domain`: walk the rows, skip those with an empty
(falsy) stored embedding, keep the row whose similarity strictly improves
the running best. -/
def scanBestBy (sq : ℚ → ℚ) (qe : List ℚ) (emb : α → List ℚ) :
    List α → Option α × ℚ → Option α × ℚ
  | [], acc => acc
  | g :: rest, (bm, bs) =>
    if emb g ≠ [] then
      if cosineSim sq qe (emb g) > bs then
        scanBestBy sq qe emb rest (some g, cosineSim sq qe (emb g))
      else scanBestBy sq qe emb rest (bm, bs)
    else scanBestBy sq qe emb rest (bm, bs)

/-! ## External collaborators -/

/-- The program's external collaborators: the generation oracle (a function
of the exact message list it is sent), the embedding oracle, the abstract
square root, JSON parsing and serialization, the HTTP probe, the `/invite`
tool, an injected store failure for the persistence layer (any exception
inside `persist_concept_graph`'s try block, e.g. a failing commit), and
the fallible pipeline steps of the articles tool's ready branch (each may
return `Except.error`, modelling a raised exception). -/
structure Env where
  chat : List Msg → Str
  embed : Str → List ℚ
  sq : ℚ → ℚ
  parseGraph : Str → Option PartialGraph
  parseDict : Str → Option GraphData
  parseSites : Str → Option (List JsonItem)
  dumps : GraphData → Str
  probe : Str → Bool
  invite : Str → Db → Str × Db
  storeFails : Bool
  sitesStep : Str → Str → Str → Except Str (List Str)
  queriesStep : GraphData → List Str → Str → Str → Except Str (List Str)
  searchStep : List Str → Except Str (List RetrievalHit)
  rankStep : List RetrievalHit → GraphData → Except Str (List RetrievalHit)
  renderStep : GraphData → List RetrievalHit → List Str → Except Str Str

/-! ## Articles tool: readiness gate and extraction (tools/articles/intent.py) -/

/-- The message list `evaluate_search_readiness` sends to the oracle. -/
def readinessMessages (history : List Msg) : List Msg :=
  [⟨str "system",
    str "You are a conversation bouncer. Does the AI have enough specific context to fetch personalized reading links? CRITICAL: If user asks to stop questions or asks for links immediately, output YES. Output only YES or NO."⟩,
   ⟨str "user", str "Conversation:\n" ++ historyText history⟩]

/-- `evaluate_search_readiness`: forced true at turn count ≥ 2, otherwise
`"YES" in response.upper()`. -/
def evaluateSearchReadiness (env : Env) (history : List Msg) (turn_count : Nat) : Bool :=
  if 2 ≤ turn_count then true
  else containsSub (str "YES") (upperStr (env.chat (readinessMessages history)))

/-- The lazy capture group of the pattern `r"Domain: (.*?)\\n"`: in a raw
Python string `\\n` is a literal backslash followed by `n`, so the group is
the shortest run of non-newline characters followed by the two characters
`\` and `n`. -/
def lazyCapture (acc : Str) (rest : Str) : Option Str :=
  if (str "\\n").isPrefixOf rest then some acc.reverse
  else
    match rest with
    | [] => none
    | c :: r => if c = '\n' then none else lazyCapture (c :: acc) r

/-- `re.search` for the pattern `r"Domain: (.*?)\\n"`: leftmost position
whose full match succeeds. -/
def reSearchDomain (s : Str) : Option Str :=
  if (str "Domain: ").isPrefixOf s then
    match lazyCapture [] (s.drop 8) with
    | some cap => some cap
    | none => match s with | [] => none | _ :: r => reSearchDomain r
  else match s with | [] => none | _ :: r => reSearchDomain r

/-- `detect_past_domain` from tools/articles/intent.py. -/
def detectPastDomain (ctx : Option Str) : Option Str :=
  match ctx with
  | none => none
  | some s =>
    if s = [] then none
    else
      match reSearchDomain s with
      | some cap => some (pstrip cap)
      | none => none

/-- Modelled from the spec: the detection the regex was evidently meant to
perform — capture up to a real newline (`r"Domain: (.*?)\n"`).  Used only
to evidence the divergence between the source's pattern and its intent. -/
def lazyCaptureNl (acc : Str) : Str → Option Str
  | [] => none
  | c :: r => if c = '\n' then some acc.reverse else lazyCaptureNl (c :: acc) r

/-- Modelled from the spec: leftmost search for `"Domain: "` followed by a
newline-terminated capture. -/
def reSearchDomainNl (s : Str) : Option Str :=
  if (str "Domain: ").isPrefixOf s then
    match lazyCaptureNl [] (s.drop 8) with
    | some cap => some cap
    | none => match s with | [] => none | _ :: r => reSearchDomainNl r
  else match s with | [] => none | _ :: r => reSearchDomainNl r

/-- The message list `extract_concept_graph` sends to the oracle, including
the optional past-domain framing (skipped for a falsy past domain). -/
def extractMessages (history : List Msg) (past_domain : Option Str) : List Msg :=
  [⟨str "system",
    str "You are a Psychological Profiler and Knowledge Architect analyzing a conversation.\nExtract the true learning intent into this EXACT JSON structure for a Knowledge Graph:\n\x7b\n  \"domain\": \"The ULTRA-SPECIFIC architectural field\",\n  \"core_intent\": \"What the user ACTUALLY wants to feel, achieve, or understand.\",\n  \"article_archetype\": \"Ideal article format.\",\n  \"exact_phrase_weight\": \"The most vital 2-4 word exact string they used.\",\n  \"nodes\": [\x7b\"id\": \"topic_name\", \"status\": \"known_concept | target_concept | unknown_concept\"\x7d],\n  \"edges\": [\x7b\"source\": \"node_id_1\", \"target\": \"node_id_2\", \"relationship\": \"relationship\"\x7d]\n\x7d\n"
      ++ (match past_domain with
          | some d =>
            if d = [] then str ""
            else str "The user previously studied under the domain '" ++ d ++
              str "'. If this conversation deeply aligns with that, use it. Otherwise, define a NEW ultra-specific domain.\n"
          | none => str "")
      ++ str "Ensure all concepts are captured as nodes. Output ONLY pure JSON."⟩,
   ⟨str "user", str "Conversation History:\n" ++ historyText history⟩]

/-- `extract_concept_graph`: oracle call, code-fence stripping, JSON parse
(external), field-by-field defaulting, full default graph on failure. -/
def extractConceptGraph (env : Env) (history : List Msg) (past_domain : Option Str) : GraphData :=
  match env.parseGraph (cleanJsonPayload (env.chat (extractMessages history past_domain))) with
  | some pg => applyDefaults pg
  | none => defaultGraph

/-- The message list `build_challenger_reply` sends to the oracle. -/
def challengerMessages (tool_history : List Msg) (g : GraphData) (ctx : Option Str) : List Msg :=
  let target_ids := (g.nodes.filter (fun n => decide (n.status = str "target_concept"))).map (·.id)
  let targets0 := joinSep (str ", ") (target_ids.filter (fun i => decide (i ≠ [])))
  let targets := if targets0 = [] then str "this new topic" else targets0
  let edge_texts := (g.edges.map
      (fun e => pstrip (e.source ++ str " " ++ e.relationship ++ str " " ++ e.target))).filter
      (fun t => decide (t ≠ []))
  let edges_str := if edge_texts = [] then str "None" else joinSep (str ", ") edge_texts
  let sys0 := str "You are Morarc, a sharp, witty, and slightly provocative 'Socratic Challenger'. Your job is to figure out the user's true underlying intent so you can find perfect articles. The user wants to explore: "
      ++ targets ++ str ". Their initially detected intent is: '" ++ g.core_intent
      ++ str "'. You mapped these conceptual relationships: " ++ edges_str
      ++ str ". Ask ONE concise, conversational, high-signal question. No emojis. No filler."
  let sys := match ctx with
    | some c => if c = [] then sys0 else sys0 ++ str "\n\n" ++ c
    | none => sys0
  ⟨str "system", sys⟩ :: tool_history

/-- The dict `get_graph_data()` of a stored row, as handed to the merge
prompt (reads of it elsewhere use `get` with the same defaults). -/
def rowGraphData (g : ConceptGraphRow) : GraphData :=
  { defaultGraph with domain := g.domain, nodes := g.nodes, edges := g.edges }

/-- The message list the merge step of `persist_concept_graph` sends to the
oracle (`json.dumps` is the external serializer `env.dumps`). -/
def mergeMessages (env : Env) (old_data new_data : GraphData) : List Msg :=
  [⟨str "system",
    str "Merge OLD and NEW knowledge graphs into one JSON with fields: domain, nodes, edges. Append new nodes/edges and update node status when changed. Output JSON only."⟩,
   ⟨str "user", str "OLD:\n" ++ env.dumps old_data ++ str "\n\nNEW:\n" ++ env.dumps new_data⟩]

/-- The message list the compression step sends to the oracle. -/
def compressionMessages (env : Env) (g : GraphData) : List Msg :=
  [⟨str "system",
    str "Compress this graph by at least 40% node count while preserving core understanding. Output JSON only with domain, nodes, edges."⟩,
   ⟨str "user", env.dumps g⟩]

/-- `persist_concept_graph` (tools/articles/persistence.py): look up the
user; when the session remembers a truthy graph id whose row has the same
domain, merge (oracle, parse failure keeps the unmerged graph), compress
when the node count exceeds 20 (parse failure skips), and overwrite that
row's payload and embedding; otherwise create a new row owned by the user
and remember its id.  A parsed merge/compress dict is represented by its
field values under the program's own read defaults.  `env.storeFails`
injects a store-level exception at the write: the function's catch-all
rolls back, leaving store and session unchanged — nothing propagates. -/
def persistConceptGraph (env : Env) (db : Db) (session : Session) (final_graph : GraphData) :
    Db × Session :=
  let domain := final_graph.domain
  match db.users.find? (fun u => decide (u.phone_number = session.phone_number)) with
  | none => (db, session)
  | some user =>
    let existing_graph : Option ConceptGraphRow :=
      match session.active_graph_id with
      | some gid =>
        if gid = 0 then none else db.graphs.find? (fun g => decide (g.id = gid))
      | none => none
    match existing_graph with
    | some eg =>
      if eg.domain = domain then
        let merged_response := env.chat (mergeMessages env (rowGraphData eg) final_graph)
        let final1 :=
          match env.parseDict (cleanJsonPayload merged_response) with
          | some merged_graph => merged_graph
          | none => final_graph
        let final2 :=
          if final1.nodes.length > 20 then
            match env.parseDict (cleanJsonPayload
                (env.chat (compressionMessages env final1))) with
            | some compressed_graph => compressed_graph
            | none => final1
          else final1
        if env.storeFails then (db, session)
        else
          ({ db with graphs := db.graphs.map fun g =>
              if g.id = eg.id then
                { g with nodes := final2.nodes, edges := final2.edges
                         embedding := env.embed domain }
              else g },
           { session with active_graph_id := some eg.id })
      else
        if env.storeFails then (db, session)
        else
          let nid := db.graphs.length + 1
          ({ db with graphs := db.graphs ++
              [{ id := nid, user_id := user.id, domain := domain
                 embedding := env.embed domain
                 nodes := final_graph.nodes, edges := final_graph.edges }] },
           { session with active_graph_id := some nid })
    | none =>
      if env.storeFails then (db, session)
      else
        let nid := db.graphs.length + 1
        ({ db with graphs := db.graphs ++
            [{ id := nid, user_id := user.id, domain := domain
               embedding := env.embed domain
               nodes := final_graph.nodes, edges := final_graph.edges }] },
         { session with active_graph_id := some nid })

/-- The fallible pipeline of the ready branch (orchestrator lines 52-56):
source resolution, query generation, retrieval, ranking, rendering; the
first raised exception aborts it. -/
def readyPipeline (env : Env) (g : GraphData) : Except Str Str := do
  let verified_sites ← env.sitesStep g.domain g.core_intent g.article_archetype
  let queries ← env.queriesStep g verified_sites g.core_intent g.article_archetype
  let raw_results ← env.searchStep queries
  let ranked_results ← env.rankStep raw_results g
  let final_output ← env.renderStep g ranked_results queries
  pure final_output

/-- `_get_tool_history`. -/
def toolHistory (s : Session) : List Msg := s.chat_history.drop s.tool_start_idx

/-- `handle_articles_tool` (tools/articles/orchestrator.py); the tool turn
reads and writes the persistent store through `persist_concept_graph`, so
the store is threaded through and returned alongside the reply. -/
def handleArticlesTool (env : Env) (db : Db) (session : Session) (message : Str) :
    Str × Db × Session :=
  let s1 := session.addMessage (str "user") message
  if lowerStr message = str "done" then
    (str "You have exited the Articles Tool. You are back in standard chat.", db, (s1.popTool).2)
  else
    let tool_history := toolHistory s1
    let turn_count := tool_history.length / 2
    let is_ready := evaluateSearchReadiness env tool_history turn_count
    let past_domain := detectPastDomain s1.active_rag_context
    if is_ready = false then
      let current_graph := extractConceptGraph env tool_history past_domain
      let reply := env.chat (challengerMessages tool_history current_graph s1.active_rag_context)
      (reply, db, s1.addMessage (str "assistant") reply)
    else
      let final_graph := extractConceptGraph env tool_history past_domain
      let p := persistConceptGraph env db s1 final_graph
      match readyPipeline env final_graph with
      | Except.ok final_output =>
        (str "Your interested concept graph fully evoked.\n\n" ++ final_output ++
          str "\n\n_(Reply with '/stop' to end chat or 'done' to exit tool)_",
         p.1, (p.2.popTool).2)
      | Except.error _ =>
        (str "An error occurred while generating articles. Please try again.",
         p.1, (p.2.popTool).2)

/-! ## Response rendering (tools/articles/response.py) -/

/-- The fixed fallback sentence substituted for an empty oracle summary. -/
def fallbackSummary : Str :=
  str "This article appears relevant to your stated goal based on the extracted snippet. It is a verified source from the retrieval step."

/-- The message list `_summarize_hit` sends to the oracle. -/
def summaryMessages (hit : RetrievalHit) (core_intent : Str) : List Msg :=
  [⟨str "system",
    str "Write exactly two concise sentences about why this article is useful for the user's intent. Use only provided title/snippet. No markdown, no emojis, no links in summary."⟩,
   ⟨str "user",
    str "Core intent: " ++ core_intent ++ str "\nTitle: " ++ hit.title ++
      str "\nSnippet: " ++ hit.snippet⟩]

/-- `_summarize_hit`. -/
def summarizeHit (env : Env) (hit : RetrievalHit) (core_intent : Str) : Str :=
  let summary := pstrip (env.chat (summaryMessages hit core_intent))
  if summary = [] then fallbackSummary else summary

/-- One rendered hit block: `f"Link: {hit.url}\nSummary: {summary}"`. -/
def articleBlock (env : Env) (core_intent : Str) (hit : RetrievalHit) : Str :=
  str "Link: " ++ hit.url ++ str "\nSummary: " ++ summarizeHit env hit core_intent

/-- `format_articles_response`. -/
def formatArticlesResponse (env : Env) (g : GraphData) (ranked_hits : List RetrievalHit)
    (queries : List Str) : Str :=
  if ranked_hits = [] then
    let attempted_queries :=
      if queries ≠ [] then joinSep (str "\n") (queries.map (fun q => str "- " ++ q))
      else str "- (none)"
    str "I couldn't retrieve verified article pages right now (likely rate limits or temporary blocks).\n\nYou can retry in a minute, or refine your topic with a narrower angle.\n\nQueries attempted:\n"
      ++ attempted_queries
  else
    let header := str "Found " ++ natChars ranked_hits.length ++ str " verified article(s) (up to 3)."
    header ++ str "\n\n" ++
      joinSep (str "\n\n") (ranked_hits.map (articleBlock env g.core_intent))

/-! ## Ranking (tools/articles/ranking.py) -/

/-- The per-hit score assignment of `rank_results`:
`result.score = cosine_similarity(intent_emb, get_embedding(result.snippet))`. -/
def scoreAgainstIntent (env : Env) (intent_emb : List ℚ) (r : RetrievalHit) : RetrievalHit :=
  { r with score := cosineSim env.sq intent_emb (env.embed r.snippet) }

/-- `rank_results`: score every hit by cosine similarity of its snippet
embedding against the core-intent embedding, stable-sort descending
(Python's `list.sort` with `reverse=True` is a stable descending sort,
embedded as `List.mergeSort`), return at most `limit`. -/
def rankResults (env : Env) (results : List RetrievalHit) (g : GraphData)
    (limit : Nat) : List RetrievalHit :=
  if results = [] then []
  else
    let scored := results.map (scoreAgainstIntent env (env.embed g.core_intent))
    (scored.mergeSort (fun a b => decide (b.score ≤ a.score))).take limit

/-- The number of `get_embedding` calls `rank_results` performs: none on an
empty input, otherwise one for the intent plus one per hit. -/
def rankEmbedCalls (results : List RetrievalHit) : Nat :=
  if results = [] then 0 else 1 + results.length

/-! ## Source resolution (tools/articles/retrieval.py) -/

/-- The fixed curated site list. -/
def CURATED_SITES : List Str :=
  [str "wikipedia.org", str "medium.com", str "reddit.com", str "plato.stanford.edu",
   str "developer.mozilla.org", str "arxiv.org", str "fastapi.tiangolo.com",
   str "freecodecamp.org", str "smashingmagazine.com"]

/-- The first-seen-order dedup loop (`for site in ...: if site not in
combined_sites: combined_sites.append(site)`). -/
def dedupAppend (xs : List Str) : List Str :=
  xs.foldl (fun acc site => if site ∈ acc then acc else acc ++ [site]) []

/-- The message list the new-domain branch sends to the oracle. -/
def sitesMessages (domain core_intent article_archetype : Str) : List Msg :=
  [⟨str "system",
    str "You are an expert librarian and domain sniper. The user wants to explore '" ++ domain ++
      str "'. Core intent: '" ++ core_intent ++ str "'. Desired format: '" ++ article_archetype ++
      str "'. Return exactly 6 best website domain names as pure JSON array."⟩,
   ⟨str "user", str "Subject: " ++ domain⟩]

/-- The new-domain branch of `get_verified_sites_for_domain`: oracle
proposal (3-site default on parse failure or emptiness), normalization,
HTTP probing, curated union, 2-site fallback on an empty union, persist a
new row. -/
def newDomainSites (env : Env) (rows : List DomainSourceRow) (domain_emb : List ℚ)
    (domain core_intent article_archetype : Str) : List Str × List DomainSourceRow :=
  let proposed0 :=
    match env.parseSites (cleanJsonPayload (env.chat (sitesMessages domain core_intent article_archetype))) with
    | some l => l
    | none => []
  let proposed_sites :=
    if proposed0 = [] then
      [JsonItem.s (str "wikipedia.org"), JsonItem.s (str "medium.com"), JsonItem.s (str "reddit.com")]
    else proposed0
  let verified_sites := proposed_sites.foldl
    (fun acc item =>
      match item with
      | JsonItem.s v =>
        let normalized := normalizeSite v
        if normalized = [] then acc
        else if env.probe normalized then acc ++ [normalized] else acc
      | JsonItem.other => acc) []
  let combined0 := dedupAppend (CURATED_SITES ++ verified_sites)
  let combined_sites := if combined0 = [] then [str "wikipedia.org", str "medium.com"] else combined0
  (combined_sites,
   rows ++ [{ id := rows.length, domain_name := domain, embedding := domain_emb
              sites := combined_sites }])

/-- `get_verified_sites_for_domain`: semantic match against the stored
domain sources (> 0.85 reuses and extends the matched row), otherwise the
new-domain branch.  Returns the site list and the updated store. -/
def getVerifiedSitesForDomain (env : Env) (rows : List DomainSourceRow)
    (domain core_intent article_archetype : Str) : List Str × List DomainSourceRow :=
  match scanBestBy env.sq (env.embed domain) (fun r : DomainSourceRow => r.embedding)
      rows (none, -1) with
  | (some best_match, best_score) =>
    if best_score > 0.85 then
      let combined_sites := dedupAppend (CURATED_SITES ++ best_match.sites)
      (combined_sites,
       rows.map (fun r => if r.id = best_match.id then { r with sites := combined_sites } else r))
    else newDomainSites env rows (env.embed domain) domain core_intent article_archetype
  | (none, _) => newDomainSites env rows (env.embed domain) domain core_intent article_archetype

/-! ## RAG injection (core/memory.py) -/

/-- The rendered historical-graph context string. -/
def renderRagContext (g : ConceptGraphRow) : Str :=
  let node_strs := g.nodes.map (fun n => n.id ++ str " (" ++ n.status ++ str ")")
  let edge_strs := g.edges.map
    (fun e => e.source ++ str " -> " ++ e.target ++ str " (" ++ e.relationship ++ str ")")
  str "RAG CONTEXT - User previously explored the Domain: " ++ g.domain ++
    str "\nHistorical Nodes: " ++ joinSep (str ", ") node_strs ++
    str "\nHistorical Edges: " ++ joinSep (str ", ") edge_strs ++
    str "\nUse this historical graph purely as context. If their new query fits within this domain, playfully reference their past learning. Do NOT rigidly force the conversation to conform to old nodes if their goals have changed."

/-- `MemoryManager.retrieve_and_inject_rag`: the source only queries the
store (no write), scores the user's past graphs and attaches the rendered
best match when its score strictly exceeds 0.6. -/
def retrieveAndInjectRag (env : Env) (db : Db) (session : Session) (query : Str) : Session :=
  match db.users.find? (fun u => decide (u.phone_number = session.phone_number)) with
  | none => session
  | some user =>
    let past_graphs := db.graphs.filter (fun g => decide (g.user_id = user.id))
    if past_graphs = [] then session
    else
      let query_embedding := env.embed query
      match scanBestBy env.sq query_embedding (fun g : ConceptGraphRow => g.embedding)
          past_graphs (none, -1) with
      | (some best_match, best_score) =>
        if best_score > 0.6 then
          { session with active_rag_context := some (renderRagContext best_match)
                         active_graph_id := some best_match.id }
        else session
      | (none, _) => session

/-! ## Router (tools/router.py) -/

def masterNumber : Str := str "whatsapp:+917340068665"

/-- The one-time welcome block. -/
def welcomeBlock : Str :=
  str "Morarc.\n\nTools:\n- articles — deep semantic web search, 3 curated results\n\nTo use a tool, prefix it with /\nExample: /articles quantum computing\n\nOr just talk.\n\n---\n"

/-- The general-chat persona instruction. -/
def personaText : Str :=
  str "You are Morarc, an 'Intellectual Sparring Partner'. Sharp, highly intelligent, slightly provocative. RULE 1 - PING PONG: One action per message. If user asks a question -> only answer it. Full stop. If user makes a statement -> only ask one sharp question back. Never do both in the same message. RULE 2 - CLIFFHANGER: Never dump. If explaining a complex topic, give the single most interesting sentence, then stop. Let the user pull more from you. RULE 3 - NO FILLER: Never say 'Great question!', 'Certainly!', 'I'd be happy to help!', or any other filler phrases. Start with the substance. RULE 4 - TOOLS: If asked what you can do, say exactly this: 'I have /articles <topic>. It does deep semantic web scrapes and finds you 3 precise articles. Try it.' Nothing more. RULE 5 - NO EMOJIS: Forbidden."

def articlesTriggers : List Str :=
  [str "show me articles", str "show me the articles", str "try the articles",
   str "use articles", str "launch articles", str "start articles", str "find me articles"]

/-- `route_tool`: general chat when no tool is active, the articles
orchestrator (which may write concept-graph rows) when `/articles` is
active. -/
def routeTool (env : Env) (db : Db) (session : Session) (message : Str) : Str × Db × Session :=
  match session.getCurrentTool with
  | none =>
    let s1 := session.addMessage (str "user") message
    let response := env.chat (⟨str "system", personaText⟩ :: s1.chat_history)
    (response, db, s1.addMessage (str "assistant") response)
  | some current_tool =>
    if current_tool = str "/articles" then handleArticlesTool env db session message
    else (str "Error: Unexpected tool state.", db, session)

/-- `findUser`: point lookup of a User row by phone number. -/
def findUser (db : Db) (phone : Str) : Option UserRow :=
  db.users.find? (fun u => decide (u.phone_number = phone))

/-- Flip the welcomed flag of the row with the given phone number. -/
def setWelcomed (db : Db) (phone : Str) : Db :=
  { db with users := db.users.map fun u =>
      if u.phone_number = phone then { u with has_been_welcomed := true } else u }

/-- The authorized remainder of `route_message` (every return of the
source's authorized region is `welcome_prefix + _`, which the caller
`routeMessage` prepends).  An `Except.error` is an uncaught exception. -/
def routeAuthorized (env : Env) (db : Db) (mem : Mem) (phone msg : Str)
    (is_master : Bool) : Except Str (Str × Db × Mem) :=
  let (session, mem1) := getOrCreateSession mem phone
  if (str "/stop").isPrefixOf msg then
    Except.ok (str "Session terminated and memory cleared. Start fresh anytime.", db,
      clearSession mem1 phone)
  else if (str "/").isPrefixOf msg then
    let parts := splitFirstWord msg
    let tool_name := lowerStr parts.1
    let args := parts.2
    if tool_name = str "/invite" then
      if is_master = false then
        Except.ok (str "Error: Only the admin can use the /invite command.", db, mem1)
      else
        let r := env.invite args db
        Except.ok (r.1, r.2, mem1)
    else if tool_name = str "/articles" then
      match session.getCurrentTool with
      | some current_tool =>
        if current_tool = str "/articles" then
          if args ≠ [] then
            let r := routeTool env db session args
            Except.ok (r.1, r.2.1, setSession mem1 phone r.2.2)
          else
            Except.ok (str "You are already in /articles. Share your topic, or send 'done' to exit.",
              db, mem1)
        else
          Except.ok (str "Finish or stop '" ++ current_tool ++ str "' before starting /articles.",
            db, mem1)
      | none =>
        match session.pushTool tool_name with
        | Except.error e => Except.error e
        | Except.ok s2 =>
          if args ≠ [] then
            let s3 := retrieveAndInjectRag env db s2 args
            let r := routeTool env db s3 args
            Except.ok (r.1, r.2.1, setSession mem1 phone r.2.2)
          else
            Except.ok (str "What concept would you like to explore?", db, setSession mem1 phone s2)
    else
      Except.ok (str "Unknown tool '" ++ tool_name ++ str "'. Currently supported: /articles",
        db, mem1)
  else if articlesTriggers.any (fun t => containsSub t (lowerStr msg)) then
    match session.getCurrentTool with
    | some current_tool =>
      if current_tool = str "/articles" then
        Except.ok (str "You are already in /articles. Share your topic, or send 'done' to exit.",
          db, mem1)
      else
        Except.ok (str "Finish or stop '" ++ current_tool ++ str "' before starting /articles.",
          db, mem1)
    | none =>
      match session.pushTool (str "/articles") with
      | Except.error e => Except.error e
      | Except.ok s2 =>
        Except.ok (str "What concept would you like to explore?", db, setSession mem1 phone s2)
  else
    let r := routeTool env db session msg
    Except.ok (r.1, r.2.1, setSession mem1 phone r.2.2)

/-- `route_message`: strip, authorize (master always; otherwise the row
must exist, flipping the welcomed flag on first contact), then run the
authorized region and prepend the welcome prefix to its reply. -/
def routeMessage (env : Env) (db : Db) (mem : Mem) (phone msg0 : Str) :
    Except Str (Str × Db × Mem) :=
  let msg := pstrip msg0
  let is_master := decide (phone = masterNumber)
  let auth : Bool × Bool × Db :=
    if is_master then (true, false, db)
    else
      match findUser db phone with
      | some user =>
        (true, !user.has_been_welcomed,
         if user.has_been_welcomed then db else setWelcomed db phone)
      | none => (false, false, db)
  if auth.1 = false then
    Except.ok (str "Unauthorized. You are not registered to interact with Morarc.", auth.2.2, mem)
  else
    let welcome_head := if auth.2.1 then welcomeBlock else []
    match routeAuthorized env auth.2.2 mem phone msg is_master with
    | Except.ok (r, d, m) => Except.ok (welcome_head ++ r, d, m)
    | Except.error e => Except.error e

/-! ## Concrete environments and rows used to instantiate theorems -/

/-- A neutral environment whose generation oracle is `f` and whose other
collaborators are inert. -/
def envWith (f : List Msg → Str) : Env :=
  { chat := f
    embed := fun _ => []
    sq := fun q => q
    parseGraph := fun _ => none
    parseDict := fun _ => none
    parseSites := fun _ => none
    dumps := fun _ => str ""
    probe := fun _ => false
    invite := fun _ d => (str "", d)
    storeFails := false
    sitesStep := fun _ _ _ => Except.ok []
    queriesStep := fun _ _ _ _ => Except.ok []
    searchStep := fun _ => Except.ok []
    rankStep := fun r _ => Except.ok r
    renderStep := fun _ _ _ => Except.ok (str "") }

/-- A concrete historical concept-graph row for the domain "Stoicism". -/
def c6Row : ConceptGraphRow :=
  { id := 7, user_id := 1, domain := str "Stoicism", embedding := [1]
    nodes := [⟨str "virtue", str "known_concept"⟩]
    edges := [⟨str "virtue", str "eudaimonia", str "supports"⟩] }

/-- A concrete store with one welcomed user owning one concept graph whose
unit embedding matches the unit query embedding exactly. -/
def ragDb : Db :=
  { users := [{ id := 1, phone_number := str "p", name := str "A", has_been_welcomed := true }]
    graphs := [{ id := 3, user_id := 1, domain := str "D", embedding := [1]
                 nodes := [], edges := [] }] }

/-- An environment whose embedding oracle returns the unit vector and whose
square root is exact on 1. -/
def envRag : Env := { envWith (fun _ => str "ok") with embed := fun _ => [1], sq := fun q => q }

/-- A concrete store holding the master identity's own User row, not yet
welcomed. -/
def dbMaster : Db :=
  { users := [{ id := 1, phone_number := masterNumber, name := str "Boss"
                has_been_welcomed := false }]
    graphs := [] }

/-- A concrete store with one ordinary not-yet-welcomed user. -/
def dbAnn : Db :=
  { users := [{ id := 1, phone_number := str "whatsapp:+15550001111", name := str "Ann"
                has_been_welcomed := false }]
    graphs := [] }

deriving instance DecidableEq for Except

/-- A concrete retrieval hit with a whitespace-free URL. -/
def c1Hit : RetrievalHit :=
  { url := str "https://a.io", title := str "T", snippet := str "S"
    source_query := str "q", retrieval_status := str "verified", score := 0 }

/-! ## Helper lemmas -/

theorem popTool_tool_stack (s : Session) :
    (s.popTool).2.tool_stack = s.tool_stack.dropLast := by
  unfold Session.popTool
  cases h : s.tool_stack.getLast? with
  | some t => rfl
  | none =>
    have : s.tool_stack = [] := by
      cases hs : s.tool_stack with
      | nil => rfl
      | cons a as => rw [hs] at h; simp [List.getLast?] at h
    simp [this]

theorem persist_preserves_tool_stack (env : Env) (db : Db) (s : Session) (g : GraphData) :
    (persistConceptGraph env db s g).2.tool_stack = s.tool_stack := by
  simp only [persistConceptGraph]
  repeat' split
  all_goals rfl

theorem persist_preserves_users (env : Env) (db : Db) (s : Session) (g : GraphData) :
    (persistConceptGraph env db s g).1.users = db.users := by
  simp only [persistConceptGraph]
  repeat' split
  all_goals rfl

theorem handleArticles_users (env : Env) (db : Db) (s : Session) (m : Str) :
    (handleArticlesTool env db s m).2.1.users = db.users := by
  simp only [handleArticlesTool]
  repeat' split
  all_goals first
    | rfl
    | apply persist_preserves_users

theorem routeTool_users (env : Env) (db : Db) (s : Session) (m : Str) :
    (routeTool env db s m).2.1.users = db.users := by
  simp only [routeTool]
  repeat' split
  all_goals first
    | rfl
    | apply handleArticles_users

/-! ## C2: the tool slot -/

/-- C2: a `push_tool` on an occupied slot raises the "already in a tool"
error (the raise happens before any mutation, so the caller's session is
unchanged), and a successful push happens only from an empty slot and
leaves exactly one name on it, with every other field preserved. -/
theorem push_tool_single_slot (s : Session) (tool_name : Str) :
    (∀ t, s.tool_stack.getLast? = some t →
      s.pushTool tool_name = Except.error (str "Cannot open '" ++ tool_name ++
        str "'. You must finish or stop '" ++ t ++ str "' first.")) ∧
    (∀ s2, s.pushTool tool_name = Except.ok s2 →
      s.tool_stack = [] ∧ s2.tool_stack = [tool_name] ∧
      s2.phone_number = s.phone_number ∧ s2.chat_history = s.chat_history ∧
      s2.active_rag_context = s.active_rag_context ∧
      s2.active_graph_id = s.active_graph_id) := by
  constructor
  · intro t ht
    unfold Session.pushTool
    rw [ht]
  · intro s2 h
    unfold Session.pushTool at h
    cases hl : s.tool_stack.getLast? with
    | some t => rw [hl] at h; exact absurd h (by simp)
    | none =>
      rw [hl] at h
      have hnil : s.tool_stack = [] := by
        cases hs : s.tool_stack with
        | nil => rfl
        | cons a as => rw [hs] at hl; simp [List.getLast?] at hl
      injection h with h2
      subst h2
      simp [hnil]

/-! ## C3: the readiness gate -/

/-- C3 (amended): with the tool-local turn count computed as
`(transcript length − tool start offset) / 2`, a turn count of at least 2
forces readiness true for every oracle; below 2 turns, readiness is true
iff the upper-cased oracle answer contains `"YES"` (the source checks
`"YES" in response.upper()`, i.e. case-insensitively). -/
theorem readiness_gate (env : Env) (history : List Msg) (n idx : Nat) :
    (2 ≤ (n - idx) / 2 →
      evaluateSearchReadiness env history ((n - idx) / 2) = true) ∧
    ((n - idx) / 2 < 2 →
      (evaluateSearchReadiness env history ((n - idx) / 2) = true ↔
        containsSub (str "YES")
          (upperStr (env.chat (readinessMessages history))) = true)) := by
  constructor
  · intro h
    unfold evaluateSearchReadiness
    rw [if_pos h]
  · intro h
    unfold evaluateSearchReadiness
    rw [if_neg (by omega)]

/-- C3 (counterexample): at turn count 0 with an oracle answering the
lower-case `"yes"`, the gate reports ready, yet the oracle's answer does
not contain the string `"YES"` — readiness below 2 turns is not equivalent
to the answer containing `"YES"` verbatim. -/
theorem readiness_contains_yes_cex :
    evaluateSearchReadiness (envWith fun _ => str "yes") [] 0 = true ∧
    containsSub (str "YES") ((envWith fun _ => str "yes").chat (readinessMessages [])) = false := by
  decide

/-- C3 (witness): the amended gate at concrete inputs — turn count 2 is
ready for an oracle that answers "NO", and turn count 0 follows the
upper-cased containment check. -/
theorem readiness_gate_witness :
    evaluateSearchReadiness (envWith fun _ => str "no way") [] ((5 - 1) / 2) = true ∧
    (evaluateSearchReadiness (envWith fun _ => str "no way") [] ((1 - 1) / 2) = true ↔
      containsSub (str "YES")
        (upperStr ((envWith fun _ => str "no way").chat (readinessMessages []))) = true) :=
  ⟨(readiness_gate (envWith fun _ => str "no way") [] 5 1).1 (by decide),
   (readiness_gate (envWith fun _ => str "no way") [] 1 1).2 (by decide)⟩

/-! ## C4: the ready branch always pops the tool -/

/-- C4: in the ready branch (readiness true, message not "done"), the
orchestrator pops the tool slot no matter how the pipeline behaves —
persistence absorbs its own exceptions (including an injected store
failure), and an exception raised in source resolution, query generation,
retrieval, ranking or rendering lands in the `except` handler, which still
pops the tool and returns the generic failure message. -/
theorem ready_branch_always_pops (env : Env) (db : Db) (s : Session) (message : Str)
    (hdone : lowerStr message ≠ str "done")
    (hready : evaluateSearchReadiness env (toolHistory (s.addMessage (str "user") message))
        ((toolHistory (s.addMessage (str "user") message)).length / 2) = true) :
    (handleArticlesTool env db s message).2.2.tool_stack = s.tool_stack.dropLast ∧
    (∀ e, readyPipeline env (extractConceptGraph env
        (toolHistory (s.addMessage (str "user") message))
        (detectPastDomain (s.addMessage (str "user") message).active_rag_context)) =
          Except.error e →
      (handleArticlesTool env db s message).1 =
        str "An error occurred while generating articles. Please try again.") := by
  unfold handleArticlesTool
  rw [if_neg hdone]
  simp only [hready, Bool.true_eq_false, if_false]
  constructor
  · split
    · simp only [popTool_tool_stack, persist_preserves_tool_stack]
      rfl
    · simp only [popTool_tool_stack, persist_preserves_tool_stack]
      rfl
  · intro e hp
    rw [hp]

/-- C4 (witness): a concrete ready session (turn count 2) whose source
resolution raises: the returned session's slot is empty and the reply is
the generic failure message. -/
theorem ready_branch_always_pops_witness :
    (handleArticlesTool
      { envWith (fun _ => str "ok") with sitesStep := fun _ _ _ => Except.error (str "db down") }
      { users := [], graphs := [] }
      { phone_number := str "p", chat_history := [⟨str "user", str "a"⟩, ⟨str "assistant", str "b"⟩, ⟨str "user", str "c"⟩]
        tool_stack := [str "/articles"], active_rag_context := none
        active_graph_id := none, tool_start_idx := 0 }
      (str "go")).2.2.tool_stack = [] ∧
    (handleArticlesTool
      { envWith (fun _ => str "ok") with sitesStep := fun _ _ _ => Except.error (str "db down") }
      { users := [], graphs := [] }
      { phone_number := str "p", chat_history := [⟨str "user", str "a"⟩, ⟨str "assistant", str "b"⟩, ⟨str "user", str "c"⟩]
        tool_stack := [str "/articles"], active_rag_context := none
        active_graph_id := none, tool_start_idx := 0 }
      (str "go")).1 = str "An error occurred while generating articles. Please try again." := by
  have h := ready_branch_always_pops
    { envWith (fun _ => str "ok") with sitesStep := fun _ _ _ => Except.error (str "db down") }
    { users := [], graphs := [] }
    { phone_number := str "p", chat_history := [⟨str "user", str "a"⟩, ⟨str "assistant", str "b"⟩, ⟨str "user", str "c"⟩]
      tool_stack := [str "/articles"], active_rag_context := none
      active_graph_id := none, tool_start_idx := 0 }
    (str "go") (by decide) (by decide)
  exact ⟨h.1, h.2 (str "db down") rfl⟩

/-! ## C6: past-domain detection -/

set_option maxRecDepth 100000 in
/-- C6 (code bug): the context string rendered by the RAG injector names
the domain "Stoicism" after `"Domain: "` followed by a real newline, but
`detect_past_domain` searches for the pattern `r"Domain: (.*?)\\n"`, whose
`\\n` is a literal backslash and `n` in a raw string; no rendered context
contains that two-character sequence, so detection returns `None` — while
the evidently intended newline-terminated pattern recovers "Stoicism". -/
theorem detect_past_domain_misses_rendered_context :
    detectPastDomain (some (renderRagContext c6Row)) = none ∧
    reSearchDomainNl (renderRagContext c6Row) = some (str "Stoicism") := by
  decide

/-! ## C5: RAG injection threshold -/

theorem scanBestBy_gt_iff {α : Type} (sq : ℚ → ℚ) (qe : List ℚ) (emb : α → List ℚ) (c : ℚ) :
    ∀ (l : List α) (bm : Option α) (bs : ℚ),
      (scanBestBy sq qe emb l (bm, bs)).2 > c ↔
        bs > c ∨ ∃ g ∈ l, emb g ≠ [] ∧ cosineSim sq qe (emb g) > c := by
  intro l
  induction l with
  | nil => intro bm bs; simp [scanBestBy]
  | cons g rest ih =>
    intro bm bs
    unfold scanBestBy
    by_cases hemb : emb g ≠ []
    · rw [if_pos hemb]
      by_cases hup : cosineSim sq qe (emb g) > bs
      · rw [if_pos hup, ih]
        constructor
        · rintro (h | ⟨g2, hg2, he2, hs2⟩)
          · exact Or.inr ⟨g, List.mem_cons_self g rest, hemb, h⟩
          · exact Or.inr ⟨g2, List.mem_cons_of_mem g hg2, he2, hs2⟩
        · rintro (h | ⟨g2, hg2, he2, hs2⟩)
          · exact Or.inl (lt_trans h hup)
          · rcases List.mem_cons.mp hg2 with rfl | hg2r
            · exact Or.inl hs2
            · exact Or.inr ⟨g2, hg2r, he2, hs2⟩
      · rw [if_neg hup, ih]
        constructor
        · rintro (h | ⟨g2, hg2, he2, hs2⟩)
          · exact Or.inl h
          · exact Or.inr ⟨g2, List.mem_cons_of_mem g hg2, he2, hs2⟩
        · rintro (h | ⟨g2, hg2, he2, hs2⟩)
          · exact Or.inl h
          · rcases List.mem_cons.mp hg2 with rfl | hg2r
            · exact Or.inl (lt_of_lt_of_le hs2 (not_lt.mp hup))
            · exact Or.inr ⟨g2, hg2r, he2, hs2⟩
    · rw [if_neg hemb, ih]
      constructor
      · rintro (h | ⟨g2, hg2, he2, hs2⟩)
        · exact Or.inl h
        · exact Or.inr ⟨g2, List.mem_cons_of_mem g hg2, he2, hs2⟩
      · rintro (h | ⟨g2, hg2, he2, hs2⟩)
        · exact Or.inl h
        · rcases List.mem_cons.mp hg2 with rfl | hg2r
          · exact absurd he2 hemb
          · exact Or.inr ⟨g2, hg2r, he2, hs2⟩

theorem scanBestBy_result {α : Type} (sq : ℚ → ℚ) (qe : List ℚ) (emb : α → List ℚ) :
    ∀ (l : List α) (bm : Option α) (bs : ℚ),
      scanBestBy sq qe emb l (bm, bs) = (bm, bs) ∨
        ∃ g ∈ l, emb g ≠ [] ∧
          scanBestBy sq qe emb l (bm, bs) = (some g, cosineSim sq qe (emb g)) := by
  intro l
  induction l with
  | nil => intro bm bs; exact Or.inl rfl
  | cons g rest ih =>
    intro bm bs
    unfold scanBestBy
    by_cases hemb : emb g ≠ []
    · rw [if_pos hemb]
      by_cases hup : cosineSim sq qe (emb g) > bs
      · rw [if_pos hup]
        rcases ih (some g) (cosineSim sq qe (emb g)) with h | ⟨g2, hg2, he2, h⟩
        · exact Or.inr ⟨g, List.mem_cons_self g rest, hemb, h⟩
        · exact Or.inr ⟨g2, List.mem_cons_of_mem g hg2, he2, h⟩
      · rw [if_neg hup]
        rcases ih bm bs with h | ⟨g2, hg2, he2, h⟩
        · exact Or.inl h
        · exact Or.inr ⟨g2, List.mem_cons_of_mem g hg2, he2, h⟩
    · rw [if_neg hemb]
      rcases ih bm bs with h | ⟨g2, hg2, he2, h⟩
      · exact Or.inl h
      · exact Or.inr ⟨g2, List.mem_cons_of_mem g hg2, he2, h⟩

/-- C5: for a session whose user exists and owns at least one concept
graph, the injector attaches the rendered context of a matched graph and
that graph's id exactly when some owned graph's cosine similarity against
the query embedding strictly exceeds 0.6 (a graph with an empty stored
embedding is skipped by the loop, and its cosine score is 0 anyway); when
no score exceeds 0.6 the session is returned untouched.  The source only
queries the store — it contains no write — so the model takes the store
read-only. -/
theorem rag_injection_threshold (env : Env) (db : Db) (session : Session) (query : Str)
    (u : UserRow)
    (hu : db.users.find? (fun x => decide (x.phone_number = session.phone_number)) = some u)
    (hg : db.graphs.filter (fun g => decide (g.user_id = u.id)) ≠ []) :
    ((∃ g ∈ db.graphs.filter (fun g => decide (g.user_id = u.id)),
        cosineSim env.sq (env.embed query) g.embedding > 0.6) →
      ∃ g ∈ db.graphs.filter (fun g => decide (g.user_id = u.id)),
        cosineSim env.sq (env.embed query) g.embedding > 0.6 ∧
        (retrieveAndInjectRag env db session query).active_rag_context =
          some (renderRagContext g) ∧
        (retrieveAndInjectRag env db session query).active_graph_id = some g.id) ∧
    ((∀ g ∈ db.graphs.filter (fun g => decide (g.user_id = u.id)),
        ¬ cosineSim env.sq (env.embed query) g.embedding > 0.6) →
      retrieveAndInjectRag env db session query = session) := by
  have hscan := scanBestBy_result env.sq (env.embed query)
    (fun g : ConceptGraphRow => g.embedding)
    (db.graphs.filter (fun g => decide (g.user_id = u.id))) none (-1)
  have hgt := scanBestBy_gt_iff env.sq (env.embed query)
    (fun g : ConceptGraphRow => g.embedding) 0.6
    (db.graphs.filter (fun g => decide (g.user_id = u.id))) none (-1)
  have hzero : ∀ g : ConceptGraphRow,
      cosineSim env.sq (env.embed query) g.embedding > 0.6 → g.embedding ≠ [] := by
    intro g hgs hnil
    rw [hnil] at hgs
    simp only [cosineSim, normSq, dotQ] at hgs
    norm_num at hgs
  simp only [retrieveAndInjectRag, hu]
  rw [if_neg hg]
  rcases hscan with hres | ⟨g0, hg0, he0, hres⟩
  · rw [hres] at hgt ⊢
    constructor
    · intro hex
      exfalso
      rcases hex with ⟨g, hgm, hgs⟩
      have hfalse : (-1 : ℚ) > 0.6 := by
        simpa using hgt.mpr (Or.inr ⟨g, hgm, hzero g hgs, hgs⟩)
      norm_num at hfalse
    · intro _
      rfl
  · rw [hres] at hgt ⊢
    constructor
    · intro hex
      have hbig : cosineSim env.sq (env.embed query) g0.embedding > 0.6 := by
        rcases hex with ⟨g, hgm, hgs⟩
        simpa using hgt.mpr (Or.inr ⟨g, hgm, hzero g hgs, hgs⟩)
      exact ⟨g0, hg0, hbig, by simp [hbig], by simp [hbig]⟩
    · intro hall
      have hnbig : ¬ cosineSim env.sq (env.embed query) g0.embedding > 0.6 := by
        intro hbig
        rcases hgt.mp (by simpa using hbig) with h | ⟨g, hgm, _, hgs⟩
        · norm_num at h
        · exact hall g hgm hgs
      simp [hnbig]

/-- C5 (witness): a unit query embedding against a stored unit embedding
scores 1 > 0.6 and the rendered context and graph id are attached. -/
theorem rag_injection_threshold_witness :
    ∃ g ∈ ragDb.graphs.filter (fun g => decide (g.user_id = 1)),
      cosineSim envRag.sq (envRag.embed (str "q")) g.embedding > 0.6 ∧
      (retrieveAndInjectRag envRag ragDb (freshSession (str "p")) (str "q")).active_rag_context =
        some (renderRagContext g) ∧
      (retrieveAndInjectRag envRag ragDb (freshSession (str "p")) (str "q")).active_graph_id =
        some g.id :=
  (rag_injection_threshold envRag ragDb (freshSession (str "p")) (str "q")
    { id := 1, phone_number := str "p", name := str "A", has_been_welcomed := true }
    (by decide) (by simp [ragDb])).1
    ⟨{ id := 3, user_id := 1, domain := str "D", embedding := [1], nodes := [], edges := [] },
     by simp [ragDb],
     by norm_num [cosineSim, normSq, dotQ, envRag, envWith]⟩

/-! ## C10: the verified-site list always starts with the curated list -/

theorem dedup_foldl_nodup (xs : List Str) :
    ∀ acc : List Str, acc.Nodup →
      (xs.foldl (fun acc site => if site ∈ acc then acc else acc ++ [site]) acc).Nodup := by
  induction xs with
  | nil => intro acc h; simpa using h
  | cons x xs ih =>
    intro acc h
    simp only [List.foldl_cons]
    by_cases hx : x ∈ acc
    · rw [if_pos hx]; exact ih acc h
    · rw [if_neg hx]
      refine ih _ ?_
      simp [List.nodup_append, h, hx]

theorem dedup_foldl_isPre (xs : List Str) :
    ∀ acc : List Str,
      acc <+: xs.foldl (fun acc site => if site ∈ acc then acc else acc ++ [site]) acc := by
  induction xs with
  | nil => intro acc; exact List.prefix_refl acc
  | cons x xs ih =>
    intro acc
    simp only [List.foldl_cons]
    by_cases hx : x ∈ acc
    · rw [if_pos hx]; exact ih acc
    · rw [if_neg hx]
      exact (List.prefix_append acc [x]).trans (ih (acc ++ [x]))

theorem dedup_foldl_fresh (ys : List Str) :
    ∀ acc : List Str, ys.Nodup → (∀ y ∈ ys, y ∉ acc) →
      ys.foldl (fun acc site => if site ∈ acc then acc else acc ++ [site]) acc = acc ++ ys := by
  induction ys with
  | nil => intro acc _ _; simp
  | cons y ys ih =>
    intro acc hnd hfresh
    simp only [List.foldl_cons]
    rw [if_neg (hfresh y (List.mem_cons_self y ys))]
    rw [ih (acc ++ [y]) (List.nodup_cons.mp hnd).2]
    · simp
    · intro z hz
      simp only [List.mem_append, List.mem_singleton]
      rintro (hza | rfl)
      · exact hfresh z (List.mem_cons_of_mem y hz) hza
      · exact (List.nodup_cons.mp hnd).1 hz

theorem dedupAppend_curated (zs : List Str) :
    CURATED_SITES <+: dedupAppend (CURATED_SITES ++ zs) ∧
    (dedupAppend (CURATED_SITES ++ zs)).Nodup ∧
    dedupAppend (CURATED_SITES ++ zs) ≠ [] := by
  have hnd : CURATED_SITES.Nodup := by decide
  have hsplit : dedupAppend (CURATED_SITES ++ zs) =
      zs.foldl (fun acc site => if site ∈ acc then acc else acc ++ [site]) CURATED_SITES := by
    unfold dedupAppend
    rw [List.foldl_append, dedup_foldl_fresh CURATED_SITES [] hnd (by simp)]
    simp
  refine ⟨?_, ?_, ?_⟩
  · rw [hsplit]; exact dedup_foldl_isPre zs CURATED_SITES
  · exact dedup_foldl_nodup (CURATED_SITES ++ zs) [] List.nodup_nil
  · intro hnil
    have := dedup_foldl_isPre zs CURATED_SITES
    rw [← hsplit, hnil] at this
    exact absurd (List.prefix_nil.mp this) (by decide)

theorem getVerifiedSites_shape (env : Env) (rows : List DomainSourceRow)
    (domain core_intent article_archetype : Str) :
    ∃ zs, (getVerifiedSitesForDomain env rows domain core_intent article_archetype).1 =
      dedupAppend (CURATED_SITES ++ zs) := by
  unfold getVerifiedSitesForDomain newDomainSites
  generalize scanBestBy env.sq (env.embed domain) (fun r : DomainSourceRow => r.embedding)
      rows (none, -1) = p
  obtain ⟨bm, bs⟩ := p
  cases bm with
  | some best =>
    dsimp only
    by_cases hs : bs > 0.85
    · rw [if_pos hs]
      exact ⟨best.sites, rfl⟩
    · rw [if_neg hs, if_neg (dedupAppend_curated _).2.2]
      exact ⟨_, rfl⟩
  | none =>
    dsimp only
    rw [if_neg (dedupAppend_curated _).2.2]
    exact ⟨_, rfl⟩

/-- C10: for every store content, oracle proposal, and probe behavior, the
list `get_verified_sites_for_domain` returns starts with the full curated
9-site list in its fixed order and has no duplicates; in particular it is
never empty, so the 2-site empty-union fallback branch never fires. -/
theorem verified_sites_curated_first (env : Env) (rows : List DomainSourceRow)
    (domain core_intent article_archetype : Str) :
    CURATED_SITES <+:
      (getVerifiedSitesForDomain env rows domain core_intent article_archetype).1 ∧
    (getVerifiedSitesForDomain env rows domain core_intent article_archetype).1.Nodup ∧
    (getVerifiedSitesForDomain env rows domain core_intent article_archetype).1 ≠ [] := by
  obtain ⟨zs, hz⟩ := getVerifiedSites_shape env rows domain core_intent article_archetype
  rw [hz]
  exact dedupAppend_curated zs

/-! ## C8: ranking is a stable descending truncated sort -/

theorem hitLe_trans (a b c : RetrievalHit) :
    decide (b.score ≤ a.score) = true → decide (c.score ≤ b.score) = true →
      decide (c.score ≤ a.score) = true := by
  simp only [decide_eq_true_eq]
  exact fun h1 h2 => le_trans h2 h1

theorem hitLe_total (a b : RetrievalHit) :
    (decide (b.score ≤ a.score) || decide (a.score ≤ b.score)) = true := by
  simpa using le_total b.score a.score

theorem mergeSort_filter_stable (l : List RetrievalHit) (q : ℚ) :
    (l.mergeSort (fun a b => decide (b.score ≤ a.score))).filter
        (fun h => decide (h.score = q)) =
      l.filter (fun h => decide (h.score = q)) := by
  have hmem : ∀ a ∈ l.filter (fun h => decide (h.score = q)), a.score = q := by
    intro a ha
    exact of_decide_eq_true (List.mem_filter.mp ha).2
  have hpair : (l.filter (fun h => decide (h.score = q))).Pairwise
      (fun a b => decide (b.score ≤ a.score) = true) := by
    apply List.pairwise_of_forall_mem_list
    intro a ha b hb
    rw [decide_eq_true_eq, hmem a ha, hmem b hb]
  have hsub : List.Sublist (l.filter (fun h => decide (h.score = q)))
      (l.mergeSort (fun a b => decide (b.score ≤ a.score))) :=
    List.sublist_mergeSort hitLe_trans hitLe_total hpair (List.filter_sublist l)
  have heq : (l.filter (fun h => decide (h.score = q))).filter
      (fun h => decide (h.score = q)) = l.filter (fun h => decide (h.score = q)) :=
    List.filter_eq_self.mpr (fun a ha => (List.mem_filter.mp ha).2)
  have hsub2 := List.Sublist.filter (fun h => decide (h.score = q)) hsub
  rw [heq] at hsub2
  have hperm := (List.mergeSort_perm l (fun a b => decide (b.score ≤ a.score))).filter
    (fun h => decide (h.score = q))
  exact (List.Sublist.eq_of_length hsub2 hperm.length_eq.symm).symm

/-- C8: `rank_results` returns at most `limit` hits, ordered by descending
score (cosine similarity of the core-intent embedding against each snippet
embedding); the returned list is the `limit`-prefix of a stable descending
sort of the scored hits — a permutation, sorted, preserving for every
score value the original relative order of its hits; an empty input yields
an empty output with zero embedding calls. -/
theorem rank_results_spec (env : Env) (g : GraphData) (hits : List RetrievalHit)
    (limit : Nat) :
    (rankResults env hits g limit).length ≤ limit ∧
    (rankResults env hits g limit).Pairwise (fun a b => b.score ≤ a.score) ∧
    (∃ sorted : List RetrievalHit,
      sorted.Perm (hits.map (scoreAgainstIntent env (env.embed g.core_intent))) ∧
      sorted.Pairwise (fun a b => b.score ≤ a.score) ∧
      (∀ q : ℚ, sorted.filter (fun h => decide (h.score = q)) =
        (hits.map (scoreAgainstIntent env (env.embed g.core_intent))).filter
          (fun h => decide (h.score = q))) ∧
      rankResults env hits g limit = sorted.take limit) ∧
    (hits = [] → rankResults env hits g limit = [] ∧ rankEmbedCalls hits = 0) := by
  by_cases hh : hits = []
  · subst hh
    refine ⟨by simp [rankResults], by simp [rankResults], ⟨[], by simp, by simp, by simp, by simp [rankResults]⟩,
      fun _ => ⟨by simp [rankResults], by simp [rankEmbedCalls]⟩⟩
  · have hrank : rankResults env hits g limit =
        ((hits.map (scoreAgainstIntent env (env.embed g.core_intent))).mergeSort
          (fun a b => decide (b.score ≤ a.score))).take limit := by
      simp [rankResults, hh]
    have hsorted : ((hits.map (scoreAgainstIntent env (env.embed g.core_intent))).mergeSort
        (fun a b => decide (b.score ≤ a.score))).Pairwise
        (fun a b => decide (b.score ≤ a.score) = true) :=
      List.sorted_mergeSort hitLe_trans hitLe_total _
    have hprop : ((hits.map (scoreAgainstIntent env (env.embed g.core_intent))).mergeSort
        (fun a b => decide (b.score ≤ a.score))).Pairwise
        (fun a b => b.score ≤ a.score) :=
      hsorted.imp (fun h => of_decide_eq_true h)
    refine ⟨?_, ?_, ?_, fun h => absurd h hh⟩
    · rw [hrank]
      exact List.length_take_le _ _
    · rw [hrank]
      exact hprop.sublist (List.take_sublist _ _)
    · exact ⟨_, List.mergeSort_perm _ _, hprop,
        fun q => mergeSort_filter_stable _ q, hrank⟩

/-! ## C7: the one-time welcome -/

theorem find_setWelcomed_aux (phone : Str) (u : UserRow) :
    ∀ l : List UserRow,
      l.find? (fun x => decide (x.phone_number = phone)) = some u →
      (l.map (fun x => if x.phone_number = phone then { x with has_been_welcomed := true } else x)).find?
          (fun x => decide (x.phone_number = phone)) =
        some { u with has_been_welcomed := true } := by
  intro l
  induction l with
  | nil => intro h; simp at h
  | cons v vs ih =>
    intro h
    simp only [List.map_cons]
    by_cases hv : v.phone_number = phone
    · rw [List.find?_cons_of_pos _ (by simp [hv])] at h
      injection h with h
      subst h
      rw [List.find?_cons_of_pos _ (by simp [hv])]
      rw [if_pos hv]
    · rw [List.find?_cons_of_neg _ (by simp [hv])] at h
      rw [List.find?_cons_of_neg _ (by simp [hv])]
      exact ih h

theorem findUser_setWelcomed (db : Db) (phone : Str) (u : UserRow)
    (hu : findUser db phone = some u) :
    findUser (setWelcomed db phone) phone = some { u with has_been_welcomed := true } :=
  find_setWelcomed_aux phone u db.users hu

theorem routeAuthorized_users_const (env : Env) (db : Db) (mem : Mem) (phone msg : Str)
    (x : Str × Db × Mem)
    (hx : routeAuthorized env db mem phone msg false = Except.ok x) :
    x.2.1.users = db.users := by
  unfold routeAuthorized at hx
  repeat' first
    | exact absurd rfl (by assumption)
    | split at hx
    | (simp only [Except.ok.injEq] at hx; subst hx; simp [routeTool_users])
    | simp at hx

/-- C7 (amended): for every authorized non-master identity whose persisted
row has the welcomed flag unset, the first routed message flips the flag
(persisted — the users table of the resulting store is exactly that of
`setWelcomed`; the tool turn may additionally write concept-graph rows),
and its reply is the welcome block prepended to the reply the
already-welcomed store would produce; from the flipped store the flag
stays set and no later routed call for that identity changes the users
table again, so the flip happens exactly once and no subsequent reply
carries the router's welcome prefix.  The
master identity is excluded: its authorization short-circuit skips the
row lookup entirely. -/
theorem route_message_first_contact (env : Env) (db : Db) (mem : Mem) (phone msg : Str)
    (u : UserRow)
    (hm : phone ≠ masterNumber)
    (hu : findUser db phone = some u)
    (hw : u.has_been_welcomed = false) :
    routeMessage env db mem phone msg =
      Except.map (fun r => (welcomeBlock ++ r.1, r.2))
        (routeMessage env (setWelcomed db phone) mem phone msg) ∧
    findUser (setWelcomed db phone) phone = some { u with has_been_welcomed := true } ∧
    (∀ x, routeMessage env db mem phone msg = Except.ok x →
      x.2.1.users = (setWelcomed db phone).users) ∧
    (∀ (mem2 : Mem) (msg2 : Str) (y : Str × Db × Mem),
      routeMessage env (setWelcomed db phone) mem2 phone msg2 = Except.ok y →
      y.2.1.users = (setWelcomed db phone).users) := by
  have hmb : decide (phone = masterNumber) = false := decide_eq_false hm
  have hu2 := findUser_setWelcomed db phone u hu
  have hsecond : ∀ (mem2 : Mem) (msg2 : Str) (y : Str × Db × Mem),
      routeMessage env (setWelcomed db phone) mem2 phone msg2 = Except.ok y →
      y.2.1.users = (setWelcomed db phone).users := by
    intro mem2 msg2 y hy
    simp only [routeMessage, hmb, hu2, Bool.false_eq_true, if_false, Bool.not_true,
      Bool.true_eq_false, if_true] at hy
    cases hra2 : routeAuthorized env (setWelcomed db phone) mem2 phone (pstrip msg2) false with
    | ok z =>
      rw [hra2] at hy
      obtain ⟨z1, z2, z3⟩ := z
      simp only [Except.ok.injEq] at hy
      have hz := routeAuthorized_users_const env (setWelcomed db phone) mem2 phone (pstrip msg2)
        (z1, z2, z3) hra2
      rw [← hy]
      simpa using hz
    | error e => rw [hra2] at hy; simp at hy
  have hmain : routeMessage env db mem phone msg =
      Except.map (fun r => (welcomeBlock ++ r.1, r.2))
        (routeMessage env (setWelcomed db phone) mem phone msg) := by
    simp only [routeMessage, hmb, hu, hu2, hw, Bool.false_eq_true, if_false, Bool.not_false,
      Bool.not_true, Bool.true_eq_false, if_true]
    cases hra : routeAuthorized env (setWelcomed db phone) mem phone (pstrip msg) false with
    | ok r =>
      obtain ⟨r1, r2, r3⟩ := r
      simp [hra, Except.map]
    | error e => simp [hra, Except.map]
  refine ⟨hmain, hu2, ?_, hsecond⟩
  intro x hx
  rw [hmain] at hx
  cases hra : routeMessage env (setWelcomed db phone) mem phone msg with
  | ok y =>
    rw [hra] at hx
    simp only [Except.map, Except.ok.injEq] at hx
    subst hx
    simpa using hsecond mem msg y hra
  | error e => rw [hra] at hx; simp [Except.map] at hx

/-- C7 (counterexample): the master identity's own persisted row has the
welcomed flag unset, yet its first routed message is answered through the
master short-circuit: the store is returned unchanged (the flag is never
flipped) and the reply is the bare chat answer, not welcome-prefixed. -/
theorem route_master_never_welcomed_cex :
    routeMessage (envWith fun _ => str "ok") dbMaster [] masterNumber (str "hi") =
      Except.ok (str "ok", dbMaster,
        [(masterNumber,
          { phone_number := masterNumber
            chat_history := [⟨str "user", str "hi"⟩, ⟨str "assistant", str "ok"⟩]
            tool_stack := [], active_rag_context := none, active_graph_id := none
            tool_start_idx := 0 })]) ∧
    List.isPrefixOf welcomeBlock (str "ok") = false := by
  decide

/-- C7 (witness): the amended theorem applied to a concrete non-master
first contact — the persisted flag is flipped. -/
theorem route_message_first_contact_witness :
    findUser (setWelcomed dbAnn (str "whatsapp:+15550001111")) (str "whatsapp:+15550001111") =
      some { id := 1, phone_number := str "whatsapp:+15550001111", name := str "Ann",
             has_been_welcomed := true } :=
  (route_message_first_contact (envWith fun _ => str "ok") dbAnn [] (str "whatsapp:+15550001111")
    (str "hi")
    { id := 1, phone_number := str "whatsapp:+15550001111", name := str "Ann",
      has_been_welcomed := false }
    (by decide) (by decide) rfl).2.1

/-! ## C1: rendered URLs — tokenizer lemmas -/

theorem tokensAux_ws_cons (c : Char) (hc : isWS c = true) (acc b : Str) :
    tokensAux acc (c :: b) = tokensAux acc [] ++ tokens b := by
  by_cases hacc : acc = [] <;> simp_all [tokensAux, tokens]

theorem tokensAux_append_ws (c : Char) (hc : isWS c = true) :
    ∀ (a acc b : Str), tokensAux acc (a ++ c :: b) = tokensAux acc a ++ tokens b := by
  intro a
  induction a with
  | nil =>
    intro acc b
    simpa using tokensAux_ws_cons c hc acc b
  | cons d a' ih =>
    intro acc b
    by_cases hd : isWS d = true
    · rw [List.cons_append, tokensAux_ws_cons d hd acc (a' ++ c :: b),
        tokensAux_ws_cons d hd acc a']
      rw [List.append_assoc]
      congr 1
      exact ih [] b
    · rw [List.cons_append]
      simp only [tokensAux, hd, Bool.false_eq_true, if_false]
      exact ih (d :: acc) b

theorem tokens_append_ws (c : Char) (hc : isWS c = true) (a b : Str) :
    tokens (a ++ c :: b) = tokens a ++ tokens b :=
  tokensAux_append_ws c hc a [] b

theorem tokens_ws_cons (c : Char) (hc : isWS c = true) (b : Str) :
    tokens (c :: b) = tokens b := by
  simpa [tokens, tokensAux] using tokensAux_ws_cons c hc [] b

theorem tokensAux_no_ws :
    ∀ (t acc : Str), (∀ x ∈ t, isWS x = false) →
      tokensAux acc t = if acc.reverse ++ t = [] then [] else [acc.reverse ++ t] := by
  intro t
  induction t with
  | nil =>
    intro acc _
    cases acc <;> simp [tokensAux]
  | cons x t' ih =>
    intro acc h
    have hx : isWS x = false := h x (List.mem_cons_self x t')
    simp only [tokensAux, hx, Bool.false_eq_true, if_false]
    rw [ih (x :: acc) (fun y hy => h y (List.mem_cons_of_mem x hy))]
    have h1 : (x :: acc).reverse ++ t' = acc.reverse ++ x :: t' := by
      simp [List.append_assoc]
    rw [h1]

theorem tokens_no_ws (t : Str) (hne : t ≠ []) (h : ∀ x ∈ t, isWS x = false) :
    tokens t = [t] := by
  have := tokensAux_no_ws t [] h
  simpa [tokens, hne] using this

theorem tokens_joinSep_nn (bs : List Str) :
    tokens (joinSep (str "\n\n") bs) = (bs.map tokens).join := by
  induction bs with
  | nil => simp [joinSep, tokens, tokensAux]
  | cons x xs ih =>
    cases xs with
    | nil => simp [joinSep]
    | cons y rest =>
      have hshape : joinSep (str "\n\n") (x :: y :: rest) =
          x ++ '\n' :: ('\n' :: joinSep (str "\n\n") (y :: rest)) := by
        simp [joinSep, str, List.append_assoc]
      rw [hshape, tokens_append_ws '\n' (by decide),
        tokens_ws_cons '\n' (by decide), ih]
      simp

theorem joinSep_infix (sep b : Str) (bs : List Str) (h : b ∈ bs) :
    b <:+: joinSep sep bs := by
  induction bs with
  | nil => simp at h
  | cons x xs ih =>
    rcases List.mem_cons.mp h with rfl | hx
    · cases xs with
      | nil => exact List.infix_refl b
      | cons y rest =>
        exact ⟨[], sep ++ joinSep sep (y :: rest), by simp [joinSep, List.append_assoc]⟩
    · have hxs : xs ≠ [] := List.ne_nil_of_mem hx
      rcases ih hx with ⟨s, t, hst⟩
      cases xs with
      | nil => simp at hx
      | cons y rest =>
        refine ⟨x ++ sep ++ s, t, ?_⟩
        have hj : joinSep sep (x :: y :: rest) = x ++ sep ++ joinSep sep (y :: rest) := rfl
        rw [hj, ← hst]
        simp [List.append_assoc]

theorem digitChar_mem (k : Nat) (hk : k < 10) : Nat.digitChar k ∈ str "0123456789" := by
  interval_cases k <;> decide

theorem natCharsAux_spec :
    ∀ (fuel n : Nat), n < fuel →
      natCharsAux fuel n ≠ [] ∧ ∀ c ∈ natCharsAux fuel n, c ∈ str "0123456789" := by
  intro fuel
  induction fuel with
  | zero => intro n h; omega
  | succ fuel ih =>
    intro n hn
    by_cases h : n < 10
    · simp only [natCharsAux, if_pos h]
      exact ⟨by simp, by simpa using digitChar_mem n h⟩
    · simp only [natCharsAux, if_neg h]
      have hdiv : n / 10 < fuel := by
        have h1 : n / 10 < n := Nat.div_lt_self (by omega) (by omega)
        omega
      refine ⟨by simp, ?_⟩
      intro c hc
      rcases List.mem_append.mp hc with hc1 | hc2
      · exact (ih (n / 10) hdiv).2 c hc1
      · rcases List.mem_singleton.mp hc2 with rfl
        exact digitChar_mem (n % 10) (Nat.mod_lt n (by omega))

theorem natChars_spec (n : Nat) :
    natChars n ≠ [] ∧ ∀ c ∈ natChars n, c ∈ str "0123456789" :=
  natCharsAux_spec (n + 1) n (by omega)

theorem isHttpToken_of_head (c : Char) (rest : Str) (hc : ¬ c = 'h') :
    isHttpToken (c :: rest) = false := by
  have hbeq : ('h' == c) = false := by
    simp only [beq_eq_false_iff_ne, ne_eq]
    exact fun h => hc h.symm
  simp [isHttpToken, str, List.isPrefixOf, hbeq]

theorem isHttpToken_natChars (k : Nat) : isHttpToken (natChars k) = false := by
  obtain ⟨hne, hdig⟩ := natChars_spec k
  cases hnc : natChars k with
  | nil => exact absurd hnc hne
  | cons c rest =>
    have hcmem : c ∈ natChars k := by rw [hnc]; exact List.mem_cons_self c rest
    have hcd : c ∈ str "0123456789" := hdig c hcmem
    have : ¬ c = 'h' := by
      intro hch
      rw [hch] at hcd
      simp [str] at hcd
    exact isHttpToken_of_head c rest this

theorem digits_not_ws (c : Char) (hc : c ∈ str "0123456789") : isWS c = false := by
  have hlist : c ∈ ['0', '1', '2', '3', '4', '5', '6', '7', '8', '9'] := hc
  fin_cases hlist <;> decide

theorem tokens_natChars (k : Nat) : tokens (natChars k) = [natChars k] := by
  obtain ⟨hne, hdig⟩ := natChars_spec k
  exact tokens_no_ws (natChars k) hne (fun x hx => digits_not_ws x (hdig x hx))

theorem urlTokens_header (k : Nat) :
    urlTokens (str "Found " ++ natChars k ++ str " verified article(s) (up to 3).") = [] := by
  have hshape : str "Found " ++ natChars k ++ str " verified article(s) (up to 3)." =
      str "Found" ++ ' ' :: (natChars k ++ ' ' :: str "verified article(s) (up to 3).") := by
    simp [str, List.append_assoc]
  rw [urlTokens, hshape, tokens_append_ws ' ' (by decide),
    tokens_append_ws ' ' (by decide), tokens_natChars]
  rw [List.filter_append, List.filter_append]
  rw [show (tokens (str "Found")).filter isHttpToken = [] by decide]
  rw [show ([natChars k].filter isHttpToken) = [] by
    simp [List.filter, isHttpToken_natChars]]
  rw [show (tokens (str "verified article(s) (up to 3).")).filter isHttpToken = [] by decide]
  simp

theorem tokens_articleBlock (env : Env) (ci : Str) (hit : RetrievalHit)
    (hne : hit.url ≠ []) (hws : ∀ c ∈ hit.url, isWS c = false) :
    tokens (articleBlock env ci hit) =
      str "Link:" :: hit.url :: str "Summary:" :: tokens (summarizeHit env hit ci) := by
  have hshape : articleBlock env ci hit =
      str "Link:" ++ ' ' :: (hit.url ++ '\n' :: (str "Summary:" ++ ' ' :: summarizeHit env hit ci)) := by
    simp [articleBlock, str, List.append_assoc]
  rw [hshape, tokens_append_ws ' ' (by decide), tokens_append_ws '\n' (by decide),
    tokens_append_ws ' ' (by decide), tokens_no_ws hit.url hne hws]
  rw [show tokens (str "Link:") = [str "Link:"] by decide]
  rw [show tokens (str "Summary:") = [str "Summary:"] by decide]
  simp

/-- C1 (amended): for a non-empty ranked-hit list, the rendered response
contains every hit's url verbatim — unconditionally, for every oracle
output; and whenever every oracle-derived summary contains no URL-shaped
token and every hit url is non-empty and whitespace-free, every URL-shaped
token of the output is the literal url of some hit — the renderer itself
never inserts a URL it was not given.  (The no-foreign-URL half cannot
hold for every oracle: the summary text is embedded verbatim, see the
counterexample.) -/
theorem format_articles_response_urls (env : Env) (g : GraphData)
    (hits : List RetrievalHit) (queries : List Str)
    (hne : hits ≠ []) :
    (∀ h ∈ hits, h.url <:+: formatArticlesResponse env g hits queries) ∧
    ((∀ h ∈ hits, h.url ≠ [] ∧ ∀ c ∈ h.url, isWS c = false) →
      (∀ h ∈ hits, ∀ t ∈ tokens (summarizeHit env h g.core_intent),
        isHttpToken t = false) →
      ∀ t ∈ urlTokens (formatArticlesResponse env g hits queries),
        ∃ h ∈ hits, t = h.url) := by
  have hout : formatArticlesResponse env g hits queries =
      (str "Found " ++ natChars hits.length ++ str " verified article(s) (up to 3).") ++
        '\n' :: ('\n' :: joinSep (str "\n\n") (hits.map (articleBlock env g.core_intent))) := by
    simp only [formatArticlesResponse, if_neg hne, List.append_assoc]
    rw [show ∀ X : Str, str "\n\n" ++ X = '\n' :: '\n' :: X from fun _ => rfl]
  constructor
  · intro h hmem
    have hblock : h.url <:+: articleBlock env g.core_intent h :=
      ⟨str "Link: ", str "\nSummary: " ++ summarizeHit env h g.core_intent,
        by simp [articleBlock, List.append_assoc]⟩
    have hjoin : articleBlock env g.core_intent h <:+:
        joinSep (str "\n\n") (hits.map (articleBlock env g.core_intent)) :=
      joinSep_infix _ _ _ (List.mem_map_of_mem _ hmem)
    have hwhole : joinSep (str "\n\n") (hits.map (articleBlock env g.core_intent)) <:+:
        formatArticlesResponse env g hits queries := by
      rw [hout]
      exact ⟨(str "Found " ++ natChars hits.length ++
          str " verified article(s) (up to 3).") ++ ['\n', '\n'], [],
        by simp [List.append_assoc]⟩
    exact hblock.trans (hjoin.trans hwhole)
  · intro hurl hsum t ht
    rw [hout] at ht
    unfold urlTokens at ht
    rw [tokens_append_ws '\n' (by decide), tokens_ws_cons '\n' (by decide),
      List.filter_append] at ht
    rcases List.mem_append.mp ht with h1 | h2
    · exfalso
      have hdr := urlTokens_header hits.length
      unfold urlTokens at hdr
      rw [hdr] at h1
      exact absurd h1 (List.not_mem_nil t)
    · rw [tokens_joinSep_nn] at h2
      have h3 := List.mem_filter.mp h2
      rcases List.mem_join.mp h3.1 with ⟨l, hl, htl⟩
      rcases List.mem_map.mp hl with ⟨bl, hbl, rfl⟩
      rcases List.mem_map.mp hbl with ⟨h0, hh0, rfl⟩
      rw [tokens_articleBlock env g.core_intent h0 (hurl h0 hh0).1 (hurl h0 hh0).2] at htl
      simp only [List.mem_cons] at htl
      rcases htl with rfl | rfl | rfl | hts
      · exact absurd h3.2 (by decide)
      · exact ⟨h0, hh0, rfl⟩
      · exact absurd h3.2 (by decide)
      · exact absurd h3.2 (by simp [hsum h0 hh0 t hts])

/-- C1 (counterexample): the claim as stated quantifies over every oracle
output, but the summary text is embedded verbatim in the rendered
response: an oracle whose summary mentions `https://evil.io` makes the
output contain a URL that is no hit's url field. -/
theorem format_articles_foreign_url_cex :
    (str "https://evil.io") ∈ urlTokens (formatArticlesResponse
      (envWith fun _ => str "see https://evil.io now") defaultGraph [c1Hit] []) ∧
    ∀ h ∈ [c1Hit], ¬ (str "https://evil.io") = h.url := by
  decide

/-- C1 (witness): the amended theorem at a concrete hit list and a benign
oracle — the hit's url appears verbatim in the output. -/
theorem format_articles_response_urls_witness :
    str "https://a.io" <:+: formatArticlesResponse
      (envWith fun _ => str "Nice work .") defaultGraph [c1Hit] [] :=
  (format_articles_response_urls (envWith fun _ => str "Nice work .") defaultGraph [c1Hit] []
    (by simp)).1 c1Hit (List.mem_singleton_self c1Hit)

end Morarc
